import Mathlib

/-!
Verification of the session-scoped audio-relay and incremental-merge pipeline
of the `django-live-transcription` application (`app.py`).

The development shallowly embeds the Python source:

* JSON-like values (`Value`, `ValueList`, `ValueDict`) model the patient
  history data.  Python dictionaries preserve insertion order and have
  unique keys, so dictionaries are association lists; the well-formedness
  predicate `valueWF` states that every (nested) dictionary has unique keys,
  which holds for every dictionary Python can construct.
* `pyEq` models Python's `==` on such values (element-wise on lists,
  order-insensitive on dictionaries).
* `merge_section_data`, `mergeBody`, `combineVal`, `appendUnique` and
  `dictUnion` embed `TranscriptionConsumer.merge_section_data`.
* `ConsumerState` with `receive_bytes`, `process_audio_buffer`,
  `start_transcription`, `stop_transcription`, `handle_toggle`,
  `on_transcript`, `process_transcription_async` and
  `detect_medical_history_updates` embed the WebSocket consumer's state and
  handlers.  External outcomes (the upstream stream's open/close attempts)
  are passed in as explicit `Option String` results (`none` = success,
  `some e` = the exception raised).
-/

/- JSON-like values, as produced by `json.load` and by the detectors:
strings, numbers (int and float literals of the source, as rationals),
ordered lists, and insertion-ordered dictionaries. -/
mutual

inductive Value where
  | str : String → Value
  | num : Rat → Value
  | list : ValueList → Value
  | dict : ValueDict → Value

inductive ValueList where
  | nil : ValueList
  | cons : Value → ValueList → ValueList

inductive ValueDict where
  | nil : ValueDict
  | cons : String → Value → ValueDict → ValueDict

end

/-- `d[key]` lookup for a Python dict (first matching key). -/
def dictLookup : ValueDict → String → Option Value
  | .nil, _ => none
  | .cons k v rest, key => if key == k then some v else dictLookup rest key

/-- `key in d` for a Python dict. -/
def dictContains (d : ValueDict) (key : String) : Bool :=
  (dictLookup d key).isSome

/-- `d[key] = v` assignment on a Python dict: replaces the value in place if
the key is present (keeping its position), otherwise appends the new entry. -/
def dictSet : ValueDict → String → Value → ValueDict
  | .nil, key, v => .cons key v .nil
  | .cons k w rest, key, v =>
      if key == k then .cons key v rest else .cons k w (dictSet rest key v)

/-- `len(d)` for a Python dict. -/
def dictLength : ValueDict → Nat
  | .nil => 0
  | .cons _ _ rest => 1 + dictLength rest

/-- The keys of a dictionary are pairwise distinct (always true of dicts
Python constructs). -/
def keysNodup : ValueDict → Bool
  | .nil => true
  | .cons k _ rest => !(dictContains rest k) && keysNodup rest

/- Python's `==` on JSON-like values: pointwise on numbers and strings,
element-wise (order-sensitive) on lists, order-insensitive on dictionaries,
`False` across different types.  On dictionaries Python compares as finite
maps; for unique-key dictionaries this is equal length plus the sub-map
check done here. -/
mutual

def pyEq : Value → Value → Bool
  | .str a, .str b => a == b
  | .num a, .num b => a == b
  | .list a, .list b => listPyEq a b
  | .dict a, .dict b => (dictLength a == dictLength b) && dictSubset a b
  | _, _ => false

def listPyEq : ValueList → ValueList → Bool
  | .nil, .nil => true
  | .cons x xs, .cons y ys => pyEq x y && listPyEq xs ys
  | _, _ => false

def dictSubset : ValueDict → ValueDict → Bool
  | .nil, _ => true
  | .cons k v rest, b =>
      (match dictLookup b k with
       | some v2 => pyEq v v2
       | none => false) && dictSubset rest b

end

/-- `item in l` for a Python list (`item == x` against each element). -/
def pyMem (item : Value) : ValueList → Bool
  | .nil => false
  | .cons x xs => pyEq item x || pyMem item xs

/-- Append one element at the end of a list (`l.append(x)`). -/
def ValueList.snoc : ValueList → Value → ValueList
  | .nil, x => .cons x .nil
  | .cons y ys, x => .cons y (ys.snoc x)

/-- View a `ValueList` as a Lean list (for stating properties). -/
def ValueList.toList : ValueList → List Value
  | .nil => []
  | .cons x xs => x :: xs.toList

/-- View a `ValueDict` as a Lean association list (for stating properties). -/
def ValueDict.toList : ValueDict → List (String × Value)
  | .nil => []
  | .cons k v rest => (k, v) :: rest.toList

/- Well-formedness: every dictionary nested anywhere inside the value has
pairwise-distinct keys.  Every value constructible in Python satisfies
this. -/
mutual

def valueWF : Value → Bool
  | .str _ => true
  | .num _ => true
  | .list l => listWFv l
  | .dict d => keysNodup d && dictWFv d

def listWFv : ValueList → Bool
  | .nil => true
  | .cons x xs => valueWF x && listWFv xs

def dictWFv : ValueDict → Bool
  | .nil => true
  | .cons _ v rest => valueWF v && dictWFv rest

end

/-- Well-formed dictionary: unique keys, and all values well-formed. -/
def dictWF (d : ValueDict) : Bool :=
  keysNodup d && dictWFv d

/-- The list-merge loop of `merge_section_data` (app.py lines 159-162):
`merged_list = existing_value.copy()`, then each new item not already in
`merged_list` (Python `in`) is appended. -/
def appendUnique : ValueList → ValueList → ValueList
  | acc, .nil => acc
  | acc, .cons item rest =>
      appendUnique (if pyMem item acc then acc else acc.snoc item) rest

/-- `{**existing_value, **new_value}` (app.py line 167): entries of the
first dict in order, values overwritten by the second dict on colliding
keys, then the second dict's new keys appended in order. -/
def dictUnion : ValueDict → ValueDict → ValueDict
  | a, .nil => a
  | a, .cons k v rest => dictUnion (dictSet a k v) rest

/-- The per-key combination of `merge_section_data` (app.py lines 156-171):
list+list merges without duplicates, dict+dict shallow-combines, any other
combination replaces the existing value with the new one. -/
def combineVal (existing_value new_value : Value) : Value :=
  match existing_value, new_value with
  | .list l, .list m => .list (appendUnique l m)
  | .dict a, .dict b => .dict (dictUnion a b)
  | _, _ => new_value

/-- `combineVal` applied to an optional existing value: a key absent from
the existing body is inserted as-is (app.py lines 172-174). -/
def combineOpt : Option Value → Value → Value
  | some ev, nv => combineVal ev nv
  | none, nv => nv

/-- The key-by-key loop of `merge_section_data` (app.py lines 152-174):
iterates over `new_data`, looks each key up in the (unchanged)
`existing_data`, and writes the combined value into the accumulating
`merged_data`. -/
def mergeInto (existing_data : ValueDict) : ValueDict → ValueDict → ValueDict
  | merged, .nil => merged
  | merged, .cons key new_value rest =>
      let merged' :=
        match dictLookup existing_data key with
        | some ev => dictSet merged key (combineVal ev new_value)
        | none => dictSet merged key new_value
      mergeInto existing_data merged' rest

/-- The body-level merge of `merge_section_data` for a present section:
start from a copy of the existing body and fold the new data in. -/
def mergeBody (existing_data new_data : ValueDict) : ValueDict :=
  mergeInto existing_data existing_data new_data

/-- The patient-history document: section name → section body. -/
abbrev Doc := List (String × ValueDict)

/-- Association-list lookup (Python `doc[key]`, first match). -/
def alookup {α : Type} : List (String × α) → String → Option α
  | [], _ => none
  | (k, v) :: rest, key => if key == k then some v else alookup rest key

/-- `key in doc`. -/
def acontains {α : Type} (l : List (String × α)) (key : String) : Bool :=
  (alookup l key).isSome

/-- `doc[key] = v`: replace in place, or append if absent. -/
def aset {α : Type} : List (String × α) → String → α → List (String × α)
  | [], key, v => [(key, v)]
  | (k, w) :: rest, key, v =>
      if key == k then (key, v) :: rest else (k, w) :: aset rest key v

/-- `TranscriptionConsumer.merge_section_data` (app.py lines 144-179).
Returns the value the Python method returns together with the updated
`self.patient_history`.  When the document is empty or the section is
absent, the method returns `new_data` and leaves the document untouched
(the early return at lines 146-147); otherwise it merges key by key and
stores the merged body back (line 177). -/
def merge_section_data (patient_history : Doc) (section_name : String)
    (new_data : ValueDict) : ValueDict × Doc :=
  if patient_history.isEmpty || !(acontains patient_history section_name) then
    (new_data, patient_history)
  else
    match alookup patient_history section_name with
    | some existing_data =>
        let merged_data := mergeBody existing_data new_data
        (merged_data, aset patient_history section_name merged_data)
    | none => (new_data, patient_history)

example :
    appendUnique
      (ValueList.cons (.str "peanuts") .nil)
      (ValueList.cons (.str "shellfish") .nil)
    = ValueList.cons (.str "peanuts") (ValueList.cons (.str "shellfish") .nil) := rfl

example :
    merge_section_data [] "mcas_allergic"
      (ValueDict.cons "food_reactions" (.list (.cons (.str "peanuts") .nil)) .nil)
    = (ValueDict.cons "food_reactions" (.list (.cons (.str "peanuts") .nil)) .nil, []) := rfl

example :
    pyEq (.dict (ValueDict.cons "a" (.num 1) (ValueDict.cons "b" (.num 2) .nil)))
         (.dict (ValueDict.cons "b" (.num 2) (ValueDict.cons "a" (.num 1) .nil))) = true := rfl

/-- ASCII lower-casing of one character (`str.lower()` restricted to the
ASCII range, which covers all detector keywords). -/
def asciiLower (c : Char) : Char :=
  if 'A' ≤ c && c ≤ 'Z' then Char.ofNat (c.toNat + 32) else c

/-- `transcript.lower()`. -/
def lowerStr (s : String) : String :=
  String.mk (s.data.map asciiLower)

/-- `pat` occurs as a contiguous sublist of `s`. -/
def charsInfix : List Char → List Char → Bool
  | pat, [] => pat.isEmpty
  | pat, c :: rest => pat.isPrefixOf (c :: rest) || charsInfix pat rest

/-- Python's substring test `pat in s`. -/
def containsStr (s pat : String) : Bool :=
  charsInfix pat.data s.data

/-- Python whitespace for `str.strip()`. -/
def isSpaceChar (c : Char) : Bool :=
  c == ' ' || c == '\t' || c == '\n' || c == '\r' || c == '\x0b' || c == '\x0c'

/-- `transcript.strip()`. -/
def pyStrip (s : String) : String :=
  String.mk (((s.data.dropWhile isSpaceChar).reverse.dropWhile isSpaceChar).reverse)

/-- `s.endswith(c)` for a single character. -/
def strEndsWith (s : String) (c : Char) : Bool :=
  s.data.getLast? == some c

/-- A field update produced by the extraction pipeline:
`(section_name, partial_body, completeness_delta)`. -/
abbrev SectionUpdate := String × ValueDict × Rat

/-- The completeness increments of the source, written as exact rationals
(`pct 5` = the source's `0.05`). -/
def pct (n : Nat) : Rat := (n : Rat) / 100

/-- A one-entry dictionary. -/
def d1 (k : String) (v : Value) : ValueDict := .cons k v .nil

/-- A one-element list of a string. -/
def vlist1 (s : String) : Value := .list (.cons (.str s) .nil)

/-- A two-element list of strings. -/
def vlist2 (s t : String) : Value := .list (.cons (.str s) (.cons (.str t) .nil))

/-- Symptom detector of `detect_medical_history_updates`
(app.py lines 446-462). -/
def cat_symptoms (tl : String) : List SectionUpdate :=
  if containsStr tl "headache" || containsStr tl "migraine" || containsStr tl "pain" ||
     containsStr tl "dizziness" || containsStr tl "fatigue" || containsStr tl "nausea" then
    if containsStr tl "headache" || containsStr tl "migraine" then
      [("illness_timeline", d1 "current_dominant_symptoms" (vlist1 "headaches"), pct 5)]
    else if containsStr tl "dizziness" then
      [("dysautonomia_pots", d1 "orthostatic_intolerance" (vlist1 "lightheadedness"), pct 5)]
    else []
  else []

/-- The aspirin entry appended by the medication detector
(app.py lines 470-472). -/
def aspirinMed : Value :=
  .dict (.cons "name" (.str "Aspirin") (.cons "dose" (.str "81 mg")
    (.cons "route" (.str "oral") (.cons "frequency" (.str "as needed")
      (.cons "indication" (.str "headache relief") .nil)))))

/-- Medication detector of `detect_medical_history_updates`
(app.py lines 465-483). -/
def cat_medications (tl : String) : List SectionUpdate :=
  if containsStr tl "aspirin" || containsStr tl "ibuprofen" || containsStr tl "tylenol" ||
     containsStr tl "acetaminophen" || containsStr tl "vitamin" || containsStr tl "supplement" then
    if containsStr tl "aspirin" then
      [("medications_supplements", d1 "current_meds" (.list (.cons aspirinMed .nil)), pct 8)]
    else if containsStr tl "vitamin d" then
      [("medications_supplements", d1 "current_supplements" (vlist1 "vitamin D"), pct 5)]
    else []
  else []

/-- Family-history detector of `detect_medical_history_updates`
(app.py lines 486-502). -/
def cat_family (tl : String) : List SectionUpdate :=
  if containsStr tl "mother" || containsStr tl "father" || containsStr tl "sister" ||
     containsStr tl "brother" || containsStr tl "family" || containsStr tl "parent" then
    if containsStr tl "diabetes" && (containsStr tl "mother" || containsStr tl "father") then
      [("family_history", d1 "other_chronic" (vlist1 "Mother: diabetes"), pct 6)]
    else if containsStr tl "cancer" then
      [("family_history", d1 "other_chronic" (vlist1 "Father: cancer"), pct 6)]
    else []
  else []

/-- Lab-result detector of `detect_medical_history_updates`
(app.py lines 505-525); the numeric literals are matched against the
original (non-lowered) transcript. -/
def cat_labs (tl t : String) : List SectionUpdate :=
  if containsStr tl "blood test" || containsStr tl "lab result" || containsStr tl "esr" ||
     containsStr tl "crp" || containsStr tl "ana" || containsStr tl "test result" then
    if containsStr tl "esr" && containsStr t "15" then
      [("immune_inflammatory", d1 "known_labs" (.dict (d1 "esr" (.num 15))), pct 7)]
    else if containsStr tl "crp" && containsStr t "2.5" then
      [("immune_inflammatory", d1 "known_labs" (.dict (d1 "crp_mg_l" (.num (5 / 2)))), pct 7)]
    else []
  else []

/-- Lifestyle detector of `detect_medical_history_updates`
(app.py lines 528-549); `range(6000, 10000)` is the source's step-count
scan. -/
def cat_lifestyle (tl t : String) : List SectionUpdate :=
  if containsStr tl "exercise" || containsStr tl "walking" || containsStr tl "steps" ||
     containsStr tl "activity" || containsStr tl "workout" then
    if containsStr tl "steps" &&
       (List.range' 6000 4000).any (fun n => containsStr t (toString n)) then
      [("lifestyle_function",
        d1 "exercise_tolerance" (.dict (d1 "avg_steps_per_day" (.num 7500))), pct 5)]
    else if containsStr tl "exercise" && containsStr tl "improved" then
      [("lifestyle_function",
        d1 "exercise_tolerance"
          (.dict (.cons "intensity_tolerance" (.str "moderate")
            (.cons "crash_frequency_per_month" (.num 1) .nil))), pct 8)]
    else []
  else []

/-- MCAS/allergy detector of `detect_medical_history_updates`
(app.py lines 552-624). -/
def cat_mcas (tl : String) : List SectionUpdate :=
  if containsStr tl "allergic" || containsStr tl "allergy" || containsStr tl "reaction" ||
     containsStr tl "sensitive" || containsStr tl "intolerant" || containsStr tl "mcas" ||
     containsStr tl "histamine" || containsStr tl "flushing" || containsStr tl "hives" ||
     containsStr tl "rash" || containsStr tl "itching" then
    if containsStr tl "peanuts" then
      [("mcas_allergic", d1 "food_reactions" (vlist1 "peanuts"), pct 5)]
    else if containsStr tl "shellfish" || containsStr tl "shrimp" || containsStr tl "crab" then
      [("mcas_allergic", d1 "food_reactions" (vlist1 "shellfish"), pct 5)]
    else if containsStr tl "tree nuts" || containsStr tl "almonds" || containsStr tl "walnuts" then
      [("mcas_allergic", d1 "food_reactions" (vlist1 "tree nuts"), pct 5)]
    else if containsStr tl "dairy" || containsStr tl "milk" || containsStr tl "cheese" then
      [("mcas_allergic", d1 "food_reactions" (vlist1 "dairy products"), pct 5)]
    else if containsStr tl "flushing" || containsStr tl "red face" then
      [("mcas_allergic", d1 "skin_symptoms" (vlist1 "facial flushing"), pct 5)]
    else if containsStr tl "hives" || containsStr tl "urticaria" then
      [("mcas_allergic", d1 "skin_symptoms" (vlist1 "hives"), pct 5)]
    else if containsStr tl "tinnitus" || containsStr tl "ringing ears" then
      [("mcas_allergic", d1 "neuro_otologic" (vlist1 "ear ringing"), pct 5)]
    else if containsStr tl "seasonal" && containsStr tl "allergies" then
      [("mcas_allergic", d1 "seasonal_sensitivities" (vlist2 "fall ragweed" "summer grasses"), pct 6)]
    else if containsStr tl "gluten" then
      [("gi_nutrition", d1 "food_intolerances_allergies" (vlist1 "gluten"), pct 5)]
    else []
  else []

/-- Infection detector of `detect_medical_history_updates`
(app.py lines 627-643). -/
def cat_infections (tl : String) : List SectionUpdate :=
  if containsStr tl "infection" || containsStr tl "cold" || containsStr tl "flu" ||
     containsStr tl "virus" || containsStr tl "bacterial" then
    if containsStr tl "covid" then
      [("infection_exposure_history", d1 "acute_infections_history" (vlist1 "COVID-19 (2024)"), pct 8)]
    else if containsStr tl "strep" then
      [("infection_exposure_history", d1 "acute_infections_history" (vlist1 "strep throat (2024)"), pct 8)]
    else []
  else []

/-- Sleep detector of `detect_medical_history_updates`
(app.py lines 646-654). -/
def cat_sleep (tl : String) : List SectionUpdate :=
  if containsStr tl "sleep" || containsStr tl "insomnia" || containsStr tl "rest" ||
     containsStr tl "tired" || containsStr tl "exhausted" then
    if containsStr tl "sleep" && containsStr tl "improved" then
      [("energy_pem_me_cfs", d1 "sleep" (vlist1 "improved sleep quality"), pct 5)]
    else []
  else []

/-- `detect_medical_history_updates` (app.py lines 437-656): the eight
detector categories run in order on the lower-cased transcript, each
appending at most one update to the result list. -/
def detect_medical_history_updates (transcript : String) : List SectionUpdate :=
  let tl := lowerStr transcript
  cat_symptoms tl ++ cat_medications tl ++ cat_family tl ++
  cat_labs tl transcript ++ cat_lifestyle tl transcript ++ cat_mcas tl ++
  cat_infections tl ++ cat_sleep tl

/-- `parse_transcription_with_api` (app.py lines 398-421), without the
simulated delays. -/
def parse_transcription_with_api (transcript : String) : String :=
  let tl := lowerStr transcript
  if containsStr tl "hello" then "👋 " ++ transcript
  else if containsStr tl "stop" then "⏹️ " ++ transcript
  else if strEndsWith (pyStrip transcript) '?' then "❓ " ++ transcript
  else transcript

/-- `detect_keywords_with_api` (app.py lines 423-435). -/
def detect_keywords_with_api (transcript : String) : List String :=
  let tl := lowerStr transcript
  (if containsStr tl "urgent" then ["urgent"] else []) ++
  (if containsStr tl "meeting" then ["meeting"] else [])

/-- JSON events sent to the client over the WebSocket. -/
inductive ClientEvent where
  | transcription_status (status : String)
  | error (message : String)
  | transcription_update (transcription : String) (is_final : Bool)
  | parsed_response (transcription original : String) (detected_keywords : List String)
  | section_update (section_name : String) (new_data original_new_data : ValueDict)
      (completeness : Rat)

/-- The mutable state of one `TranscriptionConsumer`, together with the
observable outputs: bytes forwarded upstream (`sent_audio`, one entry per
`deepgram_connection.send` call) and events sent to the client
(`client_events`). `has_connection` is `self.deepgram_connection is not
None`. -/
structure ConsumerState where
  patient_history : Doc
  is_transcribing : Bool
  has_connection : Bool
  audio_buffer : List Nat
  sent_audio : List (List Nat)
  client_events : List ClientEvent
  detected_keywords : List String

/-- `load_patient_history` (app.py lines 126-142): the result of reading
and parsing the seed file is passed in as an `Except`; any failure is
caught and yields the empty document. -/
def load_patient_history : Except String Doc → Doc
  | .ok d => d
  | .error _ => []

/-- `__init__` (app.py lines 114-124): a fresh consumer with empty buffers
and the seed document (or `{}` on failure). -/
def mkConsumer (seed : Except String Doc) : ConsumerState :=
  { patient_history := load_patient_history seed
    is_transcribing := false
    has_connection := false
    audio_buffer := []
    sent_audio := []
    client_events := []
    detected_keywords := [] }

/-- `process_audio_buffer` (app.py lines 303-319): under the lock, if the
buffer is non-empty its contents are copied and the buffer cleared; the
copy, if any, is then sent upstream. -/
def process_audio_buffer (st : ConsumerState) : ConsumerState :=
  if st.audio_buffer.length > 0 then
    { st with audio_buffer := [], sent_audio := st.sent_audio ++ [st.audio_buffer] }
  else st

/-- The binary branch of `receive` (app.py lines 239-249): non-empty binary
frames are appended to the buffer under the lock; if transcribing with an
open upstream connection, the buffer is drained and sent. -/
def receive_bytes (st : ConsumerState) (bytes_data : List Nat) : ConsumerState :=
  if bytes_data.isEmpty then st
  else
    let st1 := { st with audio_buffer := st.audio_buffer ++ bytes_data }
    if st1.is_transcribing && st1.has_connection then process_audio_buffer st1 else st1

/-- `start_transcription` (app.py lines 258-275).  `start_error` is the
outcome of `initialize_deepgram_connection`: `none` on success, `some e`
when starting raises exception text `e`.  The connection object is
assigned before the start attempt, so it is set in both branches; on
failure the exception is caught and exactly one error event is sent. -/
def start_transcription (start_error : Option String) (st : ConsumerState) : ConsumerState :=
  let st1 := { st with has_connection := true }
  match start_error with
  | none =>
      { st1 with is_transcribing := true
                 client_events := st1.client_events ++ [.transcription_status "started"] }
  | some e =>
      { st1 with client_events :=
          st1.client_events ++ [.error ("Failed to start transcription: " ++ e)] }

/-- `stop_transcription` (app.py lines 277-299).  `finish_error` is the
outcome of `deepgram_connection.finish()`.  When a connection exists and
closing it raises, the exception is caught by the surrounding handler and
only logged: nothing after the `finish()` call runs. -/
def stop_transcription (finish_error : Option String) (st : ConsumerState) : ConsumerState :=
  if st.has_connection then
    match finish_error with
    | some _ => st
    | none =>
        { st with has_connection := false
                  audio_buffer := []
                  is_transcribing := false
                  client_events := st.client_events ++ [.transcription_status "stopped"] }
  else
    { st with audio_buffer := []
              is_transcribing := false
              client_events := st.client_events ++ [.transcription_status "stopped"] }

/-- `handle_toggle_transcription` (app.py lines 251-256). -/
def handle_toggle (start_error finish_error : Option String) (st : ConsumerState) :
    ConsumerState :=
  if st.is_transcribing then stop_transcription finish_error st
  else start_transcription start_error st

/-- `process_transcription_async` (app.py lines 354-396): parse, detect
keywords, send a parsed response when it differs from the transcript, then
detect medical updates, merge each into the document and send one
`section_update` event per update (carrying the merged body and the raw
increment). -/
def process_transcription_async (st : ConsumerState) (transcript : String) : ConsumerState :=
  let parsed_result := parse_transcription_with_api transcript
  let kws := detect_keywords_with_api transcript
  let st1 := { st with detected_keywords := kws }
  let st2 :=
    if parsed_result == transcript then st1
    else { st1 with client_events :=
            st1.client_events ++ [.parsed_response parsed_result transcript kws] }
  (detect_medical_history_updates transcript).foldl
    (fun s u =>
      let md := merge_section_data s.patient_history u.1 u.2.1
      { s with patient_history := md.2
               client_events :=
                 s.client_events ++ [.section_update u.1 md.1 u.2.1 u.2.2] })
    st2

/-- One upstream transcript event (`result.channel.alternatives[0]`). -/
structure TranscriptEvent where
  transcript : String
  is_final : Bool

/-- The `on_message` handler (app.py lines 677-700): blank transcripts are
dropped; every non-blank transcript is forwarded to the client as a
`transcription_update`; only final transcripts are processed for medical
history updates. -/
def on_transcript (st : ConsumerState) (ev : TranscriptEvent) : ConsumerState :=
  if pyStrip ev.transcript == "" then st
  else
    let st1 := { st with client_events :=
        st.client_events ++ [.transcription_update ev.transcript ev.is_final] }
    if ev.is_final then process_transcription_async st1 ev.transcript else st1

example :
    detect_medical_history_updates "I am allergic to peanuts and shellfish"
    = [("mcas_allergic", d1 "food_reactions" (vlist1 "peanuts"), pct 5)] := rfl

example :
    detect_medical_history_updates "I take aspirin and vitamin D"
    = [("medications_supplements", d1 "current_meds" (.list (.cons aspirinMed .nil)), pct 8)] := rfl

/-- `isinstance(v, list)`. -/
def Value.isList : Value → Bool
  | .list _ => true
  | _ => false

/-- `isinstance(v, dict)`. -/
def Value.isDict : Value → Bool
  | .dict _ => true
  | _ => false

/-- A session in the `Streaming` state with an open upstream connection and
pending buffered audio. -/
def streamingState : ConsumerState :=
  { patient_history := []
    is_transcribing := true
    has_connection := true
    audio_buffer := [1, 2, 3]
    sent_audio := []
    client_events := []
    detected_keywords := [] }

theorem dictLookup_dictSet_self : ∀ (d : ValueDict) (k : String) (v : Value),
    dictLookup (dictSet d k v) k = some v
  | .nil, k, v => by simp [dictSet, dictLookup]
  | .cons k2 w rest, k, v => by
    cases h : k == k2
    · simp [dictSet, dictLookup, h, dictLookup_dictSet_self rest k v]
    · simp [dictSet, dictLookup, h]

theorem dictLookup_dictSet_ne : ∀ (d : ValueDict) (k k' : String) (v : Value),
    (k' == k) = false → dictLookup (dictSet d k v) k' = dictLookup d k'
  | .nil, k, k', v, h => by simp [dictSet, dictLookup, h]
  | .cons k2 w rest, k, k', v, h => by
    cases h2 : k == k2
    · simp [dictSet, dictLookup, h2, dictLookup_dictSet_ne rest k k' v h]
    · have : k = k2 := by simpa using h2
      subst this
      simp [dictSet, dictLookup, h]

theorem dictSet_eq_of_lookup : ∀ (d : ValueDict) (k : String) (v : Value),
    dictLookup d k = some v → dictSet d k v = d
  | .nil, k, v, h => by simp [dictLookup] at h
  | .cons k2 w rest, k, v, h => by
    cases h2 : k == k2
    · simp only [dictLookup, h2, if_neg] at h
      simp [dictSet, h2, dictSet_eq_of_lookup rest k v (by simpa using h)]
    · have hk : k = k2 := by simpa using h2
      subst hk
      simp only [dictLookup, beq_self_eq_true, if_pos, if_true] at h
      simp only [Option.some.injEq] at h
      simp [dictSet, h]

theorem dictContains_of_mem_toList : ∀ (d : ValueDict) (k : String) (v : Value),
    (k, v) ∈ d.toList → dictContains d k = true
  | .nil, k, v, h => by simp [ValueDict.toList] at h
  | .cons k2 w rest, k, v, h => by
    simp only [ValueDict.toList, List.mem_cons] at h
    rcases h with h | h
    · have : k = k2 := congrArg Prod.fst h
      simp [dictContains, dictLookup, this]
    · cases h2 : k == k2
      · have := dictContains_of_mem_toList rest k v h
        simp only [dictContains, dictLookup, h2, if_neg, Bool.false_eq_true]
        simpa [dictContains] using this
      · simp [dictContains, dictLookup, h2]

theorem dictLookup_of_mem_nodup : ∀ (d : ValueDict), keysNodup d = true →
    ∀ (k : String) (v : Value), (k, v) ∈ d.toList → dictLookup d k = some v
  | .nil, _, k, v, h => by simp [ValueDict.toList] at h
  | .cons k2 w rest, hnd, k, v, h => by
    simp only [keysNodup, Bool.and_eq_true, Bool.not_eq_true'] at hnd
    simp only [ValueDict.toList, List.mem_cons, Prod.mk.injEq] at h
    rcases h with ⟨rfl, rfl⟩ | h
    · simp [dictLookup]
    · cases h2 : k == k2
      · simp only [dictLookup, h2, Bool.false_eq_true, if_neg]
        exact dictLookup_of_mem_nodup rest hnd.2 k v h
      · have hk : k = k2 := by simpa using h2
        subst hk
        have := dictContains_of_mem_toList rest k v h
        rw [this] at hnd
        simp at hnd

theorem listWFv_mem : ∀ (l : ValueList), listWFv l = true →
    ∀ x ∈ l.toList, valueWF x = true
  | .nil, _, x, hx => by simp [ValueList.toList] at hx
  | .cons y ys, h, x, hx => by
    simp only [listWFv, Bool.and_eq_true] at h
    simp only [ValueList.toList, List.mem_cons] at hx
    rcases hx with rfl | hx
    · exact h.1
    · exact listWFv_mem ys h.2 x hx

theorem dictWFv_mem : ∀ (d : ValueDict), dictWFv d = true →
    ∀ (k : String) (v : Value), (k, v) ∈ d.toList → valueWF v = true
  | .nil, _, k, v, h => by simp [ValueDict.toList] at h
  | .cons k2 w rest, hw, k, v, h => by
    simp only [dictWFv, Bool.and_eq_true] at hw
    simp only [ValueDict.toList, List.mem_cons, Prod.mk.injEq] at h
    rcases h with ⟨rfl, rfl⟩ | h
    · exact hw.1
    · exact dictWFv_mem rest hw.2 k v h

theorem dictWFv_lookup : ∀ (d : ValueDict), dictWFv d = true →
    ∀ (k : String) (v : Value), dictLookup d k = some v → valueWF v = true
  | .nil, _, k, v, h => by simp [dictLookup] at h
  | .cons k2 w rest, hw, k, v, h => by
    simp only [dictWFv, Bool.and_eq_true] at hw
    cases h2 : k == k2
    · simp only [dictLookup, h2, Bool.false_eq_true, if_neg] at h
      exact dictWFv_lookup rest hw.2 k v h
    · simp only [dictLookup, h2, if_pos, if_true, Option.some.injEq] at h
      exact h ▸ hw.1

mutual

theorem pyEq_refl : ∀ (v : Value), valueWF v = true → pyEq v v = true
  | .str s, _ => by simp [pyEq]
  | .num q, _ => by simp [pyEq]
  | .list l, h => by
    simp only [pyEq]
    exact listPyEq_refl l (by simpa [valueWF] using h)
  | .dict d, h => by
    simp only [pyEq, beq_self_eq_true, Bool.true_and]
    have h1 : keysNodup d = true := by
      simp only [valueWF, Bool.and_eq_true] at h; exact h.1
    have h2 : dictWFv d = true := by
      simp only [valueWF, Bool.and_eq_true] at h; exact h.2
    exact dictSubset_refl_aux d d
      (fun k v hv => dictLookup_of_mem_nodup d h1 k v hv) h2

theorem listPyEq_refl : ∀ (l : ValueList), listWFv l = true → listPyEq l l = true
  | .nil, _ => by simp [listPyEq]
  | .cons x xs, h => by
    simp only [listWFv, Bool.and_eq_true] at h
    simp only [listPyEq, Bool.and_eq_true]
    exact ⟨pyEq_refl x h.1, listPyEq_refl xs h.2⟩

theorem dictSubset_refl_aux : ∀ (a b : ValueDict),
    (∀ (k : String) (v : Value), (k, v) ∈ a.toList → dictLookup b k = some v) →
    dictWFv a = true → dictSubset a b = true
  | .nil, b, _, _ => by simp [dictSubset]
  | .cons k v rest, b, hp, hw => by
    simp only [dictWFv, Bool.and_eq_true] at hw
    have h1 : dictLookup b k = some v := hp k v (by simp [ValueDict.toList])
    simp only [dictSubset, h1, Bool.and_eq_true]
    exact ⟨pyEq_refl v hw.1,
      dictSubset_refl_aux rest b
        (fun k2 v2 h2 => hp k2 v2 (by simp [ValueDict.toList, h2])) hw.2⟩

end

theorem pyMem_snoc : ∀ (l : ValueList) (x y : Value),
    pyMem x (l.snoc y) = (pyMem x l || pyEq x y)
  | .nil, x, y => by simp [ValueList.snoc, pyMem]
  | .cons z zs, x, y => by
    simp [ValueList.snoc, pyMem, pyMem_snoc zs x y, Bool.or_assoc]

theorem pyMem_of_mem_wf : ∀ (l : ValueList) (x : Value),
    x ∈ l.toList → valueWF x = true → pyMem x l = true
  | .nil, x, hx, _ => by simp [ValueList.toList] at hx
  | .cons z zs, x, hx, hwf => by
    simp only [ValueList.toList, List.mem_cons] at hx
    rcases hx with rfl | hx
    · simp [pyMem, pyEq_refl x hwf]
    · simp [pyMem, pyMem_of_mem_wf zs x hx hwf]

theorem snoc_toList : ∀ (l : ValueList) (x : Value),
    (l.snoc x).toList = l.toList ++ [x]
  | .nil, x => by simp [ValueList.snoc, ValueList.toList]
  | .cons y ys, x => by
    simp [ValueList.snoc, ValueList.toList, snoc_toList ys x]

theorem appendUnique_toList_decomp : ∀ (m l : ValueList),
    ∃ t : List Value, (appendUnique l m).toList = l.toList ++ t ∧
      ∀ x ∈ t, x ∈ m.toList ∧ pyMem x l = false
  | .nil, l => ⟨[], by simp [appendUnique], by simp⟩
  | .cons item rest, l => by
    cases hm : pyMem item l
    · obtain ⟨t', ht', hprop⟩ := appendUnique_toList_decomp rest (l.snoc item)
      refine ⟨item :: t', ?_, ?_⟩
      · simp [appendUnique, hm, ht', snoc_toList]
      · intro x hx
        rcases List.mem_cons.mp hx with rfl | hx
        · exact ⟨by simp [ValueList.toList], hm⟩
        · obtain ⟨hmem, hnot⟩ := hprop x hx
          rw [pyMem_snoc] at hnot
          exact ⟨by simp [ValueList.toList, hmem],
            by simp only [Bool.or_eq_false_iff] at hnot; exact hnot.1⟩
    · obtain ⟨t', ht', hprop⟩ := appendUnique_toList_decomp rest l
      refine ⟨t', ?_, ?_⟩
      · simp [appendUnique, hm, ht']
      · intro x hx
        obtain ⟨hmem, hnot⟩ := hprop x hx
        exact ⟨by simp [ValueList.toList, hmem], hnot⟩

theorem pyMem_appendUnique_mono : ∀ (m l : ValueList) (x : Value),
    pyMem x l = true → pyMem x (appendUnique l m) = true
  | .nil, l, x, h => by simpa [appendUnique] using h
  | .cons item rest, l, x, h => by
    cases hm : pyMem item l
    · have : pyMem x (l.snoc item) = true := by rw [pyMem_snoc, h]; rfl
      simpa [appendUnique, hm] using pyMem_appendUnique_mono rest (l.snoc item) x this
    · simpa [appendUnique, hm] using pyMem_appendUnique_mono rest l x h

theorem pyMem_appendUnique_of_mem : ∀ (m l : ValueList) (x : Value),
    x ∈ m.toList → valueWF x = true → pyMem x (appendUnique l m) = true
  | .nil, l, x, hx, _ => by simp [ValueList.toList] at hx
  | .cons item rest, l, x, hx, hwf => by
    simp only [ValueList.toList, List.mem_cons] at hx
    rcases hx with rfl | hx
    · cases hm : pyMem x l
      · have : pyMem x (l.snoc x) = true := by
          rw [pyMem_snoc, pyEq_refl x hwf]; simp
        simpa [appendUnique, hm] using pyMem_appendUnique_mono rest (l.snoc x) x this
      · simpa [appendUnique, hm] using pyMem_appendUnique_mono rest l x hm
    · cases hm : pyMem item l <;>
        simpa [appendUnique, hm] using
          pyMem_appendUnique_of_mem rest _ x hx hwf

theorem appendUnique_eq_self : ∀ (m l : ValueList),
    (∀ x ∈ m.toList, pyMem x l = true) → appendUnique l m = l
  | .nil, l, _ => by simp [appendUnique]
  | .cons item rest, l, h => by
    have hm : pyMem item l = true := h item (by simp [ValueList.toList])
    simp only [appendUnique, hm, if_pos, if_true]
    exact appendUnique_eq_self rest l
      (fun x hx => h x (by simp [ValueList.toList, hx]))

theorem dictUnion_lookup_notin : ∀ (b a : ValueDict) (k : String),
    dictContains b k = false → dictLookup (dictUnion a b) k = dictLookup a k
  | .nil, a, k, _ => by simp [dictUnion]
  | .cons k2 v2 rest, a, k, h => by
    simp only [dictContains, dictLookup] at h
    cases h2 : k == k2
    · simp only [h2, Bool.false_eq_true, if_neg] at h
      rw [show dictUnion a (ValueDict.cons k2 v2 rest) = dictUnion (dictSet a k2 v2) rest from rfl]
      rw [dictUnion_lookup_notin rest (dictSet a k2 v2) k (by simpa [dictContains] using h)]
      exact dictLookup_dictSet_ne a k2 k v2 h2
    · simp [h2] at h

theorem dictUnion_lookup_right : ∀ (b a : ValueDict) (k : String) (v : Value),
    keysNodup b = true → dictLookup b k = some v →
    dictLookup (dictUnion a b) k = some v
  | .nil, a, k, v, _, h => by simp [dictLookup] at h
  | .cons k2 v2 rest, a, k, v, hnd, h => by
    simp only [keysNodup, Bool.and_eq_true, Bool.not_eq_true'] at hnd
    cases h2 : k == k2
    · simp only [dictLookup, h2, Bool.false_eq_true, if_neg] at h
      exact dictUnion_lookup_right rest (dictSet a k2 v2) k v hnd.2 h
    · have hk : k = k2 := by simpa using h2
      subst hk
      simp only [dictLookup, beq_self_eq_true, if_pos, if_true, Option.some.injEq] at h
      subst h
      rw [show dictUnion a (ValueDict.cons k v2 rest) = dictUnion (dictSet a k v2) rest from rfl]
      rw [dictUnion_lookup_notin rest (dictSet a k v2) k hnd.1]
      exact dictLookup_dictSet_self a k v2

theorem dictUnion_eq_self : ∀ (b d : ValueDict),
    (∀ (k : String) (v : Value), (k, v) ∈ b.toList → dictLookup d k = some v) →
    dictUnion d b = d
  | .nil, d, _ => rfl
  | .cons k2 v2 rest, d, h => by
    have h1 : dictLookup d k2 = some v2 := h k2 v2 (by simp [ValueDict.toList])
    rw [show dictUnion d (ValueDict.cons k2 v2 rest) = dictUnion (dictSet d k2 v2) rest from rfl]
    rw [dictSet_eq_of_lookup d k2 v2 h1]
    exact dictUnion_eq_self rest d
      (fun k v hv => h k v (by simp [ValueDict.toList, hv]))

theorem mergeInto_lookup_notin : ∀ (nd e acc : ValueDict) (k : String),
    dictContains nd k = false →
    dictLookup (mergeInto e acc nd) k = dictLookup acc k
  | .nil, e, acc, k, _ => rfl
  | .cons key nv rest, e, acc, k, h => by
    simp only [dictContains, dictLookup] at h
    cases h2 : k == key
    · simp only [h2, Bool.false_eq_true, if_neg] at h
      cases he : dictLookup e key <;>
        simp only [mergeInto, he] <;>
        rw [mergeInto_lookup_notin rest e _ k (by simpa [dictContains] using h)] <;>
        exact dictLookup_dictSet_ne acc key k _ h2
    · simp [h2] at h

theorem mergeInto_lookup_found : ∀ (nd e acc : ValueDict) (k : String) (nv : Value),
    keysNodup nd = true → dictLookup nd k = some nv →
    dictLookup (mergeInto e acc nd) k = some (combineOpt (dictLookup e k) nv)
  | .nil, e, acc, k, nv, _, h => by simp [dictLookup] at h
  | .cons key w rest, e, acc, k, nv, hnd, h => by
    simp only [keysNodup, Bool.and_eq_true, Bool.not_eq_true'] at hnd
    cases h2 : k == key
    · simp only [dictLookup, h2, Bool.false_eq_true, if_neg] at h
      cases he : dictLookup e key <;>
        simp only [mergeInto, he] <;>
        exact mergeInto_lookup_found rest e _ k nv hnd.2 h
    · have hk : k = key := by simpa using h2
      subst hk
      simp only [dictLookup, beq_self_eq_true, if_pos, if_true, Option.some.injEq] at h
      subst h
      cases he : dictLookup e k <;>
        simp only [mergeInto, he, combineOpt] <;>
        rw [mergeInto_lookup_notin rest e _ k hnd.1] <;>
        exact dictLookup_dictSet_self acc k _

theorem mergeInto_eq_self : ∀ (nd e : ValueDict),
    (∀ (k : String) (v : Value), (k, v) ∈ nd.toList →
      ∃ w, dictLookup e k = some w ∧ combineVal w v = w) →
    mergeInto e e nd = e
  | .nil, e, _ => rfl
  | .cons key nv rest, e, h => by
    obtain ⟨w, hw, hcomb⟩ := h key nv (by simp [ValueDict.toList])
    simp only [mergeInto, hw, hcomb]
    rw [dictSet_eq_of_lookup e key w hw]
    exact mergeInto_eq_self rest e
      (fun k v hv => h k v (by simp [ValueDict.toList, hv]))

theorem alookup_aset_self {α : Type} : ∀ (l : List (String × α)) (k : String) (v : α),
    alookup (aset l k v) k = some v
  | [], k, v => by simp [aset, alookup]
  | (k2, w) :: rest, k, v => by
    cases h : k == k2
    · simp [aset, alookup, h, alookup_aset_self rest k v]
    · simp [aset, alookup, h]

theorem aset_eq_of_lookup {α : Type} : ∀ (l : List (String × α)) (k : String) (v : α),
    alookup l k = some v → aset l k v = l
  | [], k, v, h => by simp [alookup] at h
  | (k2, w) :: rest, k, v, h => by
    cases h2 : k == k2
    · simp only [alookup, h2, Bool.false_eq_true, if_neg] at h
      simp [aset, h2, aset_eq_of_lookup rest k v h]
    · have hk : k = k2 := by simpa using h2
      subst hk
      simp only [alookup, beq_self_eq_true, if_pos, if_true, Option.some.injEq] at h
      simp [aset, h]

theorem aset_isEmpty {α : Type} : ∀ (l : List (String × α)) (k : String) (v : α),
    (aset l k v).isEmpty = false
  | [], k, v => by simp [aset]
  | (k2, w) :: rest, k, v => by
    cases h : k == k2 <;> simp [aset, h]

theorem combineVal_self : ∀ (v : Value), valueWF v = true → combineVal v v = v
  | .str s, _ => rfl
  | .num q, _ => rfl
  | .list l, h => by
    simp only [combineVal, Value.list.injEq]
    exact appendUnique_eq_self l l
      (fun x hx => pyMem_of_mem_wf l x hx
        (listWFv_mem l (by simpa [valueWF] using h) x hx))
  | .dict d, h => by
    simp only [valueWF, Bool.and_eq_true] at h
    simp only [combineVal, Value.dict.injEq]
    exact dictUnion_eq_self d d (fun k v hv => dictLookup_of_mem_nodup d h.1 k v hv)

theorem combineVal_absorb : ∀ (ev nv : Value), valueWF nv = true →
    combineVal (combineVal ev nv) nv = combineVal ev nv
  | .list l, .list m, h => by
    simp only [combineVal, Value.list.injEq]
    exact appendUnique_eq_self m (appendUnique l m)
      (fun x hx => pyMem_appendUnique_of_mem m l x hx
        (listWFv_mem m (by simpa [valueWF] using h) x hx))
  | .dict a, .dict b, h => by
    simp only [valueWF, Bool.and_eq_true] at h
    simp only [combineVal, Value.dict.injEq]
    exact dictUnion_eq_self b (dictUnion a b)
      (fun k v hv => dictUnion_lookup_right b a k v h.1
        (dictLookup_of_mem_nodup b h.1 k v hv))
  | .str s, nv, h => by
    have : combineVal (.str s) nv = nv := by cases nv <;> rfl
    rw [this]; exact combineVal_self nv h
  | .num q, nv, h => by
    have : combineVal (.num q) nv = nv := by cases nv <;> rfl
    rw [this]; exact combineVal_self nv h
  | .list l, .str s, h => by simp [combineVal]
  | .list l, .num q, h => by simp [combineVal]
  | .list l, .dict b, h => by
    have : combineVal (.list l) (.dict b) = .dict b := rfl
    rw [this]; exact combineVal_self _ h
  | .dict a, .str s, h => by simp [combineVal]
  | .dict a, .num q, h => by simp [combineVal]
  | .dict a, .list m, h => by
    have : combineVal (.dict a) (.list m) = .list m := rfl
    rw [this]; exact combineVal_self _ h

theorem mergeBody_lookup_notin (b nd : ValueDict) (k : String)
    (h : dictContains nd k = false) :
    dictLookup (mergeBody b nd) k = dictLookup b k :=
  mergeInto_lookup_notin nd b b k h

theorem mergeBody_lookup_found (b nd : ValueDict) (k : String) (nv : Value)
    (hnd : keysNodup nd = true) (h : dictLookup nd k = some nv) :
    dictLookup (mergeBody b nd) k = some (combineOpt (dictLookup b k) nv) :=
  mergeInto_lookup_found nd b b k nv hnd h

theorem mergeBody_absorb (b nd : ValueDict) (h : dictWF nd = true) :
    mergeBody (mergeBody b nd) nd = mergeBody b nd := by
  simp only [dictWF, Bool.and_eq_true] at h
  apply mergeInto_eq_self
  intro k v hv
  have hlk : dictLookup nd k = some v := dictLookup_of_mem_nodup nd h.1 k v hv
  have hwfv : valueWF v = true := dictWFv_mem nd h.2 k v hv
  refine ⟨combineOpt (dictLookup b k) v, mergeBody_lookup_found b nd k v h.1 hlk, ?_⟩
  cases he : dictLookup b k
  · simpa [combineOpt] using combineVal_self v hwfv
  · simpa [combineOpt] using combineVal_absorb _ v hwfv

theorem combineVal_replace (ev nv : Value)
    (h1 : (ev.isList && nv.isList) = false)
    (h2 : (ev.isDict && nv.isDict) = false) : combineVal ev nv = nv := by
  cases ev <;> cases nv <;> simp_all [combineVal, Value.isList, Value.isDict]

theorem merge_section_data_present (ph : Doc) (s : String) (body nd : ValueDict)
    (hlk : alookup ph s = some body) :
    merge_section_data ph s nd =
      (mergeBody body nd, aset ph s (mergeBody body nd)) := by
  have hcon : acontains ph s = true := by simp [acontains, hlk]
  have hne : ph.isEmpty = false := by
    cases ph
    · simp [alookup] at hlk
    · rfl
  simp [merge_section_data, hne, hcon, hlk]

/-- C9: when the stored document is empty or does not contain the section,
`merge_section_data` returns `new_data` itself and leaves the document
completely unchanged: no entry for the section is created, so the merged
result is not retained for future merges (the early return at app.py lines
146-147). -/
theorem merge_section_data_absent_frame (ph : Doc) (s : String) (nd : ValueDict)
    (h : ph = [] ∨ acontains ph s = false) :
    merge_section_data ph s nd = (nd, ph) := by
  rcases h with rfl | h
  · simp [merge_section_data]
  · simp [merge_section_data, h]

theorem merge_section_data_absent_frame_witness :
    merge_section_data [] "mcas_allergic" (d1 "food_reactions" (vlist1 "peanuts"))
      = (d1 "food_reactions" (vlist1 "peanuts"), []) :=
  merge_section_data_absent_frame [] "mcas_allergic"
    (d1 "food_reactions" (vlist1 "peanuts")) (Or.inl rfl)

/-- C1: evaluating the code on the claim's scenario.  Starting from the
empty document, merging `{"food_reactions": ["peanuts"]}` and then
`{"food_reactions": ["shellfish"]}` into section `mcas_allergic` returns
`{"food_reactions": ["shellfish"]}` — not the accumulated
`{"food_reactions": ["peanuts", "shellfish"]}` the spec requires — and the
document is still empty afterwards, because the absent-section path of
`merge_section_data` never stores the partial body. -/
theorem merge_absent_section_not_accumulated :
    merge_section_data
        (merge_section_data [] "mcas_allergic" (d1 "food_reactions" (vlist1 "peanuts"))).2
        "mcas_allergic" (d1 "food_reactions" (vlist1 "shellfish"))
      = (d1 "food_reactions" (vlist1 "shellfish"), []) ∧
    d1 "food_reactions" (vlist1 "shellfish")
      ≠ d1 "food_reactions" (vlist2 "peanuts" "shellfish") := by
  refine ⟨rfl, ?_⟩
  intro h
  simp [d1, vlist1, vlist2] at h

/-- C2: for a section already present in the document, the merge applies
the per-key rule over the partial body `nd` and returns the new full
section body: keys not mentioned in `nd` keep their existing values; a key
absent from the existing body is inserted as-is; list+list appends exactly
the new elements not already present (by Python equality), existing
elements first and in order, with every new element present afterwards;
dict+dict shallow-combines with new values overwriting colliding keys and
untouched keys keeping the existing value; any other combination replaces
the existing value. -/
theorem merge_present_section_characterization
    (ph : Doc) (s : String) (body nd : ValueDict)
    (hlk : alookup ph s = some body) (hwf : dictWF nd = true) :
    ∀ k : String,
      (dictContains nd k = false →
        dictLookup (merge_section_data ph s nd).1 k = dictLookup body k) ∧
      (∀ nv : Value, dictLookup nd k = some nv →
        (dictLookup body k = none →
          dictLookup (merge_section_data ph s nd).1 k = some nv) ∧
        (∀ l m : ValueList, dictLookup body k = some (.list l) → nv = .list m →
          dictLookup (merge_section_data ph s nd).1 k
              = some (.list (appendUnique l m)) ∧
          (∃ t : List Value, (appendUnique l m).toList = l.toList ++ t ∧
            ∀ x ∈ t, x ∈ m.toList ∧ pyMem x l = false) ∧
          (∀ x ∈ m.toList, pyMem x (appendUnique l m) = true)) ∧
        (∀ a b : ValueDict, dictLookup body k = some (.dict a) → nv = .dict b →
          dictLookup (merge_section_data ph s nd).1 k
              = some (.dict (dictUnion a b)) ∧
          (∀ (k2 : String) (v2 : Value), dictLookup b k2 = some v2 →
            dictLookup (dictUnion a b) k2 = some v2) ∧
          (∀ k2 : String, dictContains b k2 = false →
            dictLookup (dictUnion a b) k2 = dictLookup a k2)) ∧
        (∀ ev : Value, dictLookup body k = some ev →
          (ev.isList && nv.isList) = false → (ev.isDict && nv.isDict) = false →
          dictLookup (merge_section_data ph s nd).1 k = some nv)) := by
  have hmerge := merge_section_data_present ph s body nd hlk
  simp only [dictWF, Bool.and_eq_true] at hwf
  intro k
  constructor
  · intro hnot
    rw [hmerge]
    exact mergeBody_lookup_notin body nd k hnot
  · intro nv hnv
    have hfound := mergeBody_lookup_found body nd k nv hwf.1 hnv
    have hwfnv : valueWF nv = true := dictWFv_lookup nd hwf.2 k nv hnv
    refine ⟨?_, ?_, ?_, ?_⟩
    · intro hnone
      rw [hmerge]
      rw [hfound, hnone]
      rfl
    · intro l m hl hm
      subst hm
      refine ⟨?_, appendUnique_toList_decomp m l, ?_⟩
      · rw [hmerge]
        rw [hfound, hl]
        rfl
      · intro x hx
        exact pyMem_appendUnique_of_mem m l x hx
          (listWFv_mem m (by simpa [valueWF] using hwfnv) x hx)
    · intro a b ha hb
      subst hb
      have hbn : keysNodup b = true := by
        simp only [valueWF, Bool.and_eq_true] at hwfnv; exact hwfnv.1
      refine ⟨?_, ?_, ?_⟩
      · rw [hmerge]
        rw [hfound, ha]
        rfl
      · intro k2 v2 h2
        exact dictUnion_lookup_right b a k2 v2 hbn h2
      · intro k2 h2
        exact dictUnion_lookup_notin b a k2 h2
    · intro ev hev hL hD
      rw [hmerge]
      rw [hfound, hev]
      simp [combineOpt, combineVal_replace ev nv hL hD]

theorem merge_present_section_characterization_witness :
    dictLookup
        (merge_section_data
          [("s1", ValueDict.cons "a" (.num 1) (ValueDict.cons "b" (.num 2) .nil))]
          "s1" (d1 "a" (.num 1))).1 "b"
      = some (Value.num 2) :=
  (((merge_present_section_characterization
      [("s1", ValueDict.cons "a" (.num 1) (ValueDict.cons "b" (.num 2) .nil))]
      "s1" (ValueDict.cons "a" (.num 1) (ValueDict.cons "b" (.num 2) .nil))
      (d1 "a" (.num 1)) rfl (by decide)) "b").1 (by decide)).trans rfl

/-- C3: merging the same partial body into the same section twice yields
exactly the same result (returned section body and stored document) as
merging it once, for any document, section and well-formed partial body
(any body Python can build: all nested dictionaries have unique keys). -/
theorem merge_section_data_idem (ph : Doc) (s : String) (nd : ValueDict)
    (hwf : dictWF nd = true) :
    merge_section_data (merge_section_data ph s nd).2 s nd
      = merge_section_data ph s nd := by
  cases hlk : alookup ph s
  · have hcon : acontains ph s = false := by simp [acontains, hlk]
    have h1 := merge_section_data_absent_frame ph s nd (Or.inr hcon)
    rw [h1]
    simpa using h1
  · rename_i body
    have h1 := merge_section_data_present ph s body nd hlk
    have h2 : alookup (aset ph s (mergeBody body nd)) s = some (mergeBody body nd) :=
      alookup_aset_self ph s (mergeBody body nd)
    have h3 := merge_section_data_present (aset ph s (mergeBody body nd)) s
      (mergeBody body nd) nd h2
    rw [h1]
    simp only []
    rw [h3]
    rw [mergeBody_absorb body nd hwf]
    rw [aset_eq_of_lookup (aset ph s (mergeBody body nd)) s (mergeBody body nd) h2]

theorem merge_section_data_idem_witness :
    merge_section_data
        (merge_section_data
          [("mcas_allergic", d1 "food_reactions" (vlist1 "peanuts"))]
          "mcas_allergic" (d1 "food_reactions" (vlist1 "shellfish"))).2
        "mcas_allergic" (d1 "food_reactions" (vlist1 "shellfish"))
      = merge_section_data
          [("mcas_allergic", d1 "food_reactions" (vlist1 "peanuts"))]
          "mcas_allergic" (d1 "food_reactions" (vlist1 "shellfish")) :=
  merge_section_data_idem
    [("mcas_allergic", d1 "food_reactions" (vlist1 "peanuts"))]
    "mcas_allergic" (d1 "food_reactions" (vlist1 "shellfish")) (by decide)

theorem process_audio_buffer_empty (st : ConsumerState)
    (h : st.audio_buffer = []) : process_audio_buffer st = st := by
  simp [process_audio_buffer, h]

theorem foldl_receive_inactive : ∀ (frames : List (List Nat)) (st : ConsumerState),
    st.is_transcribing = false →
    frames.foldl receive_bytes st
      = { st with audio_buffer := st.audio_buffer ++ frames.flatten }
  | [], st, h => by simp
  | f :: rest, st, h => by
    rw [List.foldl_cons]
    cases hf : f.isEmpty
    · have hstep : receive_bytes st f
          = { st with audio_buffer := st.audio_buffer ++ f } := by
        simp [receive_bytes, hf, h]
      rw [hstep,
        foldl_receive_inactive rest { st with audio_buffer := st.audio_buffer ++ f } h]
      simp [List.append_assoc]
    · have hfe : f = [] := by simpa [List.isEmpty_iff] using hf
      subst hfe
      have hstep : receive_bytes st [] = st := by simp [receive_bytes]
      rw [hstep, foldl_receive_inactive rest st h]
      simp

/-- C4: appending any sequence of binary frames to the buffer (while not
relaying, so `receive` only accumulates) and then draining once sends
exactly one upstream payload, the concatenation of the frames in append
order; the drain leaves the buffer empty, and a second drain with no new
appends is a no-op (nothing is sent twice). -/
theorem buffer_at_most_once (st : ConsumerState) (frames : List (List Nat))
    (h1 : st.audio_buffer = []) (h2 : st.is_transcribing = false)
    (h3 : frames.flatten ≠ []) :
    process_audio_buffer (frames.foldl receive_bytes st)
        = { st with audio_buffer := [],
                    sent_audio := st.sent_audio ++ [frames.flatten] } ∧
    process_audio_buffer (process_audio_buffer (frames.foldl receive_bytes st))
        = process_audio_buffer (frames.foldl receive_bytes st) := by
  have hf := foldl_receive_inactive frames st h2
  have hdrain : process_audio_buffer (frames.foldl receive_bytes st)
      = { st with audio_buffer := [],
                  sent_audio := st.sent_audio ++ [frames.flatten] } := by
    rw [hf]
    unfold process_audio_buffer
    split
    · simp [h1]
    · rename_i hcond
      exfalso
      apply hcond
      simp only [h1, List.nil_append]
      exact List.length_pos.mpr h3
  refine ⟨hdrain, ?_⟩
  rw [hdrain]
  exact process_audio_buffer_empty _ rfl

theorem buffer_at_most_once_witness :
    process_audio_buffer
        (([[1, 2], [3]] : List (List Nat)).foldl receive_bytes (mkConsumer (.ok [])))
        = { (mkConsumer (.ok [])) with
            audio_buffer := [],
            sent_audio := (mkConsumer (.ok [])).sent_audio
              ++ [([[1, 2], [3]] : List (List Nat)).flatten] } ∧
    process_audio_buffer (process_audio_buffer
        (([[1, 2], [3]] : List (List Nat)).foldl receive_bytes (mkConsumer (.ok []))))
        = process_audio_buffer
            (([[1, 2], [3]] : List (List Nat)).foldl receive_bytes (mkConsumer (.ok []))) :=
  buffer_at_most_once (mkConsumer (.ok [])) [[1, 2], [3]] rfl rfl (by decide)

/-- C5 counterexample: a toggle received while Streaming, where closing the
upstream stream raises, emits no event at all to the client (refuting
"emits exactly one stopped status" and "the client always receives an
explicit status or error event"), does not clear the buffer, and leaves
the session still transcribing: the `except` handler of
`stop_transcription` only logs. -/
theorem toggle_streaming_close_failure_cex :
    (handle_toggle none (some "boom") streamingState).client_events = [] ∧
    (handle_toggle none (some "boom") streamingState).is_transcribing = true ∧
    (handle_toggle none (some "boom") streamingState).audio_buffer = [1, 2, 3] :=
  ⟨rfl, rfl, rfl⟩

/-- C5 amended: a toggle received while Streaming clears the buffer,
transitions to idle and emits exactly one `stopped` status when the
upstream stream closes successfully (or no upstream connection object
exists); when closing raises, the exception is caught and only logged — no
event is emitted and the session state is completely unchanged. -/
theorem toggle_streaming_amended (st : ConsumerState) (fe : Option String)
    (h : st.is_transcribing = true) :
    ((st.has_connection = false ∨ fe = none) →
      (handle_toggle none fe st).is_transcribing = false ∧
      (handle_toggle none fe st).audio_buffer = [] ∧
      (handle_toggle none fe st).client_events =
        st.client_events ++ [.transcription_status "stopped"]) ∧
    (st.has_connection = true → ∀ e, fe = some e → handle_toggle none fe st = st) := by
  constructor
  · intro hc
    rcases hc with hc | hc
    · simp [handle_toggle, h, stop_transcription, hc]
    · subst hc
      cases hcon : st.has_connection <;>
        simp [handle_toggle, h, stop_transcription, hcon]
  · intro hcon e hfe
    subst hfe
    simp [handle_toggle, h, stop_transcription, hcon]

theorem toggle_streaming_amended_witness :
    (handle_toggle none none streamingState).is_transcribing = false ∧
    (handle_toggle none none streamingState).audio_buffer = [] ∧
    (handle_toggle none none streamingState).client_events =
      streamingState.client_events ++ [.transcription_status "stopped"] :=
  (toggle_streaming_amended streamingState none rfl).1 (Or.inr rfl)

/-- C6: a toggle received in the Connected (idle) state attempts to open
the upstream stream; on failure the session stays not-transcribing and
exactly one error event is emitted; on success the session enters
Streaming and exactly one `started` status event is emitted. -/
theorem toggle_connected_behavior (st : ConsumerState) (se fe : Option String)
    (h : st.is_transcribing = false) :
    (se = none →
      (handle_toggle se fe st).is_transcribing = true ∧
      (handle_toggle se fe st).client_events =
        st.client_events ++ [.transcription_status "started"]) ∧
    (∀ e, se = some e →
      (handle_toggle se fe st).is_transcribing = false ∧
      (handle_toggle se fe st).client_events =
        st.client_events ++ [.error ("Failed to start transcription: " ++ e)]) := by
  constructor
  · rintro rfl
    simp [handle_toggle, h, start_transcription]
  · rintro e rfl
    simp [handle_toggle, h, start_transcription]

theorem toggle_connected_behavior_witness :
    (handle_toggle (some "boom") none (mkConsumer (.ok []))).is_transcribing = false ∧
    (handle_toggle (some "boom") none (mkConsumer (.ok []))).client_events =
      (mkConsumer (.ok [])).client_events
        ++ [.error ("Failed to start transcription: " ++ "boom")] :=
  (toggle_connected_behavior (mkConsumer (.ok [])) (some "boom") none rfl).2 "boom" rfl

/-- C7: a stream of interim-only transcript events produces zero
section-update events and leaves the document untouched — the new client
events are exactly one `transcription_update` per non-blank interim
segment, in order; extraction and merge are never reached. -/
theorem interim_segments_no_extraction : ∀ (evs : List TranscriptEvent)
    (st : ConsumerState), (∀ e ∈ evs, e.is_final = false) →
    (evs.foldl on_transcript st).client_events =
      st.client_events ++
        ((evs.filter (fun e => !(pyStrip e.transcript == ""))).map
          (fun e => ClientEvent.transcription_update e.transcript e.is_final)) ∧
    (evs.foldl on_transcript st).patient_history = st.patient_history
  | [], st, _ => by simp
  | e :: rest, st, h => by
    have he : e.is_final = false := h e (by simp)
    have hrest : ∀ x ∈ rest, x.is_final = false := fun x hx => h x (by simp [hx])
    rw [List.foldl_cons]
    cases hb : pyStrip e.transcript == ""
    · have hstep : on_transcript st e
          = { st with client_events := st.client_events
                ++ [.transcription_update e.transcript e.is_final] } := by
        simp [on_transcript, hb, he]
      rw [hstep]
      obtain ⟨h1, h2⟩ := interim_segments_no_extraction rest
        { st with client_events := st.client_events
            ++ [.transcription_update e.transcript e.is_final] } hrest
      refine ⟨?_, h2⟩
      rw [h1]
      simp [List.filter_cons, hb, List.append_assoc]
    · have hstep : on_transcript st e = st := by
        simp [on_transcript, hb]
      rw [hstep]
      obtain ⟨h1, h2⟩ := interim_segments_no_extraction rest st hrest
      refine ⟨?_, h2⟩
      rw [h1]
      simp [List.filter_cons, hb]

theorem interim_segments_no_extraction_witness :
    (([⟨"hello world", false⟩, ⟨"   ", false⟩] : List TranscriptEvent).foldl
        on_transcript (mkConsumer (.ok []))).client_events =
      (mkConsumer (.ok [])).client_events ++
        ((([⟨"hello world", false⟩, ⟨"   ", false⟩] : List TranscriptEvent).filter
            (fun e => !(pyStrip e.transcript == ""))).map
          (fun e => ClientEvent.transcription_update e.transcript e.is_final)) ∧
    (([⟨"hello world", false⟩, ⟨"   ", false⟩] : List TranscriptEvent).foldl
        on_transcript (mkConsumer (.ok []))).patient_history =
      (mkConsumer (.ok [])).patient_history :=
  interim_segments_no_extraction [⟨"hello world", false⟩, ⟨"   ", false⟩]
    (mkConsumer (.ok [])) (by decide)

/-- C8: when reading or parsing the seed file fails, the session starts
with the empty document and construction completes normally — the
resulting consumer is exactly the one built from an empty seed. -/
theorem seed_failure_empty_document (msg : String) :
    (mkConsumer (.error msg)).patient_history = [] ∧
    mkConsumer (.error msg) = mkConsumer (.ok []) :=
  ⟨rfl, rfl⟩

/-- C10: each detector category of `detect_medical_history_updates`
produces at most one field update per call, because its match arms are an
if/elif chain; in particular a transcript containing both "peanuts" and
"shellfish" (with an allergy trigger word) yields only the peanuts update
for `mcas_allergic`, and a transcript naming both aspirin and vitamin D
yields only the aspirin update for `medications_supplements`. -/
theorem detector_categories_at_most_one :
    (∀ tl, (cat_symptoms tl).length ≤ 1) ∧
    (∀ tl, (cat_medications tl).length ≤ 1) ∧
    (∀ tl, (cat_family tl).length ≤ 1) ∧
    (∀ tl t, (cat_labs tl t).length ≤ 1) ∧
    (∀ tl t, (cat_lifestyle tl t).length ≤ 1) ∧
    (∀ tl, (cat_mcas tl).length ≤ 1) ∧
    (∀ tl, (cat_infections tl).length ≤ 1) ∧
    (∀ tl, (cat_sleep tl).length ≤ 1) ∧
    detect_medical_history_updates "I am allergic to peanuts and shellfish"
      = [("mcas_allergic", d1 "food_reactions" (vlist1 "peanuts"), pct 5)] ∧
    detect_medical_history_updates "I take aspirin and vitamin D"
      = [("medications_supplements",
          d1 "current_meds" (.list (.cons aspirinMed .nil)), pct 8)] := by
  refine ⟨?_, ?_, ?_, ?_, ?_, ?_, ?_, ?_, rfl, rfl⟩
  · intro tl
    unfold cat_symptoms
    repeat' split
    all_goals simp
  · intro tl
    unfold cat_medications
    repeat' split
    all_goals simp
  · intro tl
    unfold cat_family
    repeat' split
    all_goals simp
  · intro tl t
    unfold cat_labs
    repeat' split
    all_goals simp
  · intro tl t
    unfold cat_lifestyle
    repeat' split
    all_goals simp
  · intro tl
    unfold cat_mcas
    repeat' split
    all_goals simp
  · intro tl
    unfold cat_infections
    repeat' split
    all_goals simp
  · intro tl
    unfold cat_sleep
    repeat' split
    all_goals simp
